import Mathlib

/- Verification development for the terminai interactive shell
   (src/shell.ts).  The session loop, the suggestion state machine, the
   interrupt handler, the cd pseudo-command and the history store are
   embedded as pure Lean functions over explicit state; JavaScript strings
   are modelled as lists of characters, and the asynchronous event
   handlers of a spawned subprocess as functions from events to state
   transitions. -/

namespace Terminai

/-- JavaScript strings, modelled as lists of characters. -/
abbrev JStr := List Char

/-- Characters removed by JavaScript String.prototype.trim
(the ASCII whitespace characters). -/
def isJsWs (c : Char) : Bool :=
  c == ' ' || c == '\t' || c == '\n' || c == '\r' || c == '\x0b' || c == '\x0c'

/-- JavaScript String.prototype.trim: strips leading and trailing
whitespace characters (including line terminators). -/
def jsTrim (s : JStr) : JStr :=
  ((s.dropWhile isJsWs).reverse.dropWhile isJsWs).reverse

/-- JavaScript String.prototype.toLowerCase restricted to ASCII. -/
def jsToLower (s : JStr) : JStr := s.map Char.toLower

/-- The aiSuggestionContext field of TerminaiShell (shell.ts line 49):
originalCommand is the natural-language text that triggered translation and
isAiSuggestion marks the next submitted line as an AI suggestion. -/
structure SuggCtx where
  originalCommand : JStr
  isAiSuggestion : Bool
deriving DecidableEq, Repr

/-- Observable actions of one question-callback invocation of the
interactive loop (shell.ts lines 110-143): terminating the session,
assigning null to aiSuggestionContext, and awaiting executeCommand with its
skipAiTranslation flag and optional originalPrompt argument. -/
inductive LoopEvent
  | exitSession
  | clearContext
  | exec (cmd : JStr) (skipAiTranslation : Bool) (originalPrompt : Option JStr)
deriving DecidableEq, Repr

/-- True when the event is a command execution. -/
def LoopEvent.isExec : LoopEvent → Bool
  | .exec _ _ _ => true
  | _ => false

/-- True when the event assigns null to aiSuggestionContext. -/
def LoopEvent.isClear : LoopEvent → Bool
  | .clearContext => true
  | _ => false

/-- One iteration of the interactive loop: the user submits input while
aiSuggestionContext holds ctx.  execEffect abstracts the mutation the
awaited executeCommand applies to aiSuggestionContext before returning
(handleFailedCommand and handleFailedAiCommand may install a fresh context
inside it).  Returns aiSuggestionContext as it stands when the callback
finishes, together with the ordered trace of events the callback performs
(shell.ts lines 110-143). -/
def submitLine (execEffect : Option SuggCtx → Option SuggCtx)
    (ctx : Option SuggCtx) (input : JStr) : Option SuggCtx × List LoopEvent :=
  let t := jsTrim input
  if t == "exit".data || t == "quit".data then (ctx, [.exitSession])
  else if t == [] then (none, [.clearContext])
  else
    match ctx with
    | some c =>
      if c.isAiSuggestion then
        (none, [.exec t true (some c.originalCommand), .clearContext])
      else (execEffect (some c), [.exec t false none])
    | none => (execEffect none, [.exec t false none])

/-- True when a clearContext event precedes the first exec event of the
trace. -/
def clearBeforeExec (tr : List LoopEvent) : Bool :=
  (tr.takeWhile (fun e => !e.isExec)).any (fun e => e.isClear)

/-- C1, claim as stated, is false: with a pending suggestion (original text
"ls files") the submitted non-empty line "ls -la" is executed first and the
suggestion context is assigned null only afterwards, so the context is not
cleared before the line executes. -/
theorem c1_counterexample :
    (submitLine id (some ⟨"ls files".data, true⟩) "ls -la".data).2
      = [.exec "ls -la".data true (some "ls files".data), .clearContext]
    ∧ clearBeforeExec
        (submitLine id (some ⟨"ls files".data, true⟩) "ls -la".data).2 = false := by
  exact ⟨by decide, by decide⟩

/-- C1 (amended): when a suggestion is pending and the user submits a
non-empty line other than exit/quit, that line is executed exactly once
with the suggestion provenance attached, the context is assigned null
immediately after the execution completes, and the context left behind is
none no matter what context mutation the execution itself performed, so the
same suggestion context can never be consumed twice. -/
theorem c1_suggestion_consumed_once
    (execEffect : Option SuggCtx → Option SuggCtx) (c : SuggCtx) (input : JStr)
    (hAi : c.isAiSuggestion = true)
    (hne : jsTrim input ≠ [])
    (hexit : jsTrim input ≠ "exit".data)
    (hquit : jsTrim input ≠ "quit".data) :
    (submitLine execEffect (some c) input).1 = none ∧
    (submitLine execEffect (some c) input).2
      = [.exec (jsTrim input) true (some c.originalCommand), .clearContext] := by
  have h1 : (jsTrim input == "exit".data || jsTrim input == "quit".data) = false := by
    simp [hexit, hquit]
  have h2 : (jsTrim input == ([] : JStr)) = false := by simp [hne]
  refine ⟨?_, ?_⟩ <;> simp [submitLine, h1, h2, hAi]

/-- C1 amended, witnessed at a concrete input: submitting the prefilled
suggestion text while the context from "list big files" is pending leaves a
null context even when the execution itself tried to install a fresh one. -/
theorem c1_suggestion_consumed_once_witness :
    jsTrim "find . -size +100M".data ≠ [] ∧
    (submitLine (fun _ => some ⟨"clobbered".data, true⟩)
        (some ⟨"list big files".data, true⟩) "find . -size +100M".data).1 = none :=
  ⟨by decide,
    (c1_suggestion_consumed_once (fun _ => some ⟨"clobbered".data, true⟩)
      ⟨"list big files".data, true⟩ "find . -size +100M".data rfl
      (by decide) (by decide) (by decide)).1⟩

/-- JavaScript truthiness of a string-or-undefined value (undefined and the
empty string are falsy). -/
def jsTruthyStr : Option JStr → Bool
  | some p => !(p == [])
  | none => false

/-- The JavaScript expression code || 1 on a number-or-null exit code. -/
def jsOrOne : Option Int → Int
  | some c => if c == 0 then 1 else c
  | none => 1

/-- Outcome decided by the close handler of a spawned subprocess
(shell.ts lines 376-406). -/
inductive CloseAction
  | success
  | attemptTranslation (cmd : JStr)
  | offerFix (originalPrompt failedCmd errorOutput : JStr) (exitCode : Int)
  | reportAiSuggestedFailed
  | reportNoAiService
deriving DecidableEq, Repr

/-- The branch taken by the close handler (shell.ts lines 380-399) given
the availability of the AI service, the skipAiTranslation flag and
originalPrompt argument of executeCommand, the command text, the
accumulated stderr text, and the exit code delivered by the close event
(null when the subprocess was terminated by a signal). -/
def closeDecision (aiServiceAvailable skipAiTranslation : Bool)
    (originalPrompt : Option JStr) (command errorOutput : JStr)
    (code : Option Int) : CloseAction :=
  if code == some 0 then .success
  else if aiServiceAvailable && !skipAiTranslation then .attemptTranslation command
  else if skipAiTranslation && jsTruthyStr originalPrompt then
    .offerFix (originalPrompt.getD []) command errorOutput (jsOrOne code)
  else if skipAiTranslation then .reportAiSuggestedFailed
  else .reportNoAiService

/-- Mutable state touched by the handlers of one spawned subprocess
(shell.ts lines 349-423): the Session's single running-process slot
currentRunningProcess (holding the handle of the spawn that owns it), the
hasOutput flag and the accumulated stderr text. -/
structure ExecState where
  currentRunningProcess : Option Nat
  hasOutput : Bool
  errorOutput : JStr
deriving DecidableEq, Repr

/-- Events a spawned subprocess delivers to the handlers registered on it:
stream data, the close event (all streams drained, exit code known), a
spawn-level error, and process-exit (which can precede close while output
streams are still open). -/
inductive ProcEvent
  | stdoutData (chunk : JStr)
  | stderrData (chunk : JStr)
  | closeEv (code : Option Int)
  | errorEv
  | exitEv (code : Option Int) (signal : Option JStr)
deriving DecidableEq, Repr

/-- Effect of one subprocess event on the handler state, paired with the
close-handler decision when the event is close (shell.ts lines 363-423).
The stdout and stderr handlers record output; the close, error and exit
handlers each assign null to currentRunningProcess. -/
def procStep (aiServiceAvailable skipAiTranslation : Bool)
    (originalPrompt : Option JStr) (command : JStr)
    (s : ExecState) : ProcEvent → ExecState × Option CloseAction
  | .stdoutData _ => ({ s with hasOutput := true }, none)
  | .stderrData chunk =>
      ({ s with hasOutput := true, errorOutput := s.errorOutput ++ chunk }, none)
  | .closeEv code =>
      ({ s with currentRunningProcess := none },
       some (closeDecision aiServiceAvailable skipAiTranslation originalPrompt
              command s.errorOutput code))
  | .errorEv => ({ s with currentRunningProcess := none }, none)
  | .exitEv _ _ => ({ s with currentRunningProcess := none }, none)

/-- C2: after the interrupt handler has killed the running subprocess (so
the slot is already null), the close event of the signal-terminated process
arrives with a null exit code, and the close handler still enters the
translation path: it consults only the exit code and the skipAiTranslation
flag, nothing records that the termination came from the user's interrupt. -/
theorem c2_interrupt_kill_still_translates :
    procStep true false none "sleep 100".data
        { currentRunningProcess := none, hasOutput := false, errorOutput := [] }
        (.closeEv none)
      = ({ currentRunningProcess := none, hasOutput := false, errorOutput := [] },
         some (.attemptTranslation "sleep 100".data)) := by decide

/-- C8, claim as stated, is false: the exit-event handler (shell.ts lines
416-423) already assigns null to currentRunningProcess, so after
process-exit but before the close event (output streams still open) the
slot no longer holds the handle of the spawned process. -/
theorem c8_counterexample :
    (procStep true false none "ls".data
        { currentRunningProcess := some 42, hasOutput := false, errorOutput := [] }
        (.exitEv (some 1) none)).1.currentRunningProcess = none
    ∧ (procStep true false none "ls".data
        { currentRunningProcess := some 42, hasOutput := false, errorOutput := [] }
        (.exitEv (some 1) none)).1.currentRunningProcess ≠ some 42 := by
  exact ⟨by decide, by decide⟩

/-- C8 (amended): the running-process slot is cleared at whichever of the
subprocess's close, error, or exit events is delivered first - in
particular already at process-exit while output streams may still be open -
and the stream-data handlers never change it. -/
theorem c8_slot_clearing (ai skip : Bool) (op : Option JStr) (cmd : JStr)
    (s : ExecState) :
    (∀ code, (procStep ai skip op cmd s (.closeEv code)).1.currentRunningProcess = none) ∧
    (procStep ai skip op cmd s .errorEv).1.currentRunningProcess = none ∧
    (∀ code sig, (procStep ai skip op cmd s (.exitEv code sig)).1.currentRunningProcess = none) ∧
    (∀ chunk, (procStep ai skip op cmd s (.stdoutData chunk)).1.currentRunningProcess
        = s.currentRunningProcess) ∧
    (∀ chunk, (procStep ai skip op cmd s (.stderrData chunk)).1.currentRunningProcess
        = s.currentRunningProcess) :=
  ⟨fun _ => rfl, rfl, fun _ _ => rfl, fun _ => rfl, fun _ => rfl⟩

/-- Events performed by the SIGINT handler (shell.ts lines 147-180) and by
cleanup (shell.ts lines 735-745). -/
inductive SigEvent
  | killForwarded
  | suggestionCancelled
  | lineCleared
  | promptAgain
  | saveHistory
  | closeReadline
  | exitSession
deriving DecidableEq, Repr

/-- Session state consulted by the SIGINT handler. -/
structure SigState where
  currentRunningProcess : Option Nat
  aiSuggestionContext : Option SuggCtx
deriving DecidableEq, Repr

/-- The SIGINT handler (shell.ts lines 147-180): with a running subprocess
it forwards the interrupt to that subprocess and clears the slot, keeping
the session alive; otherwise, with a pending suggestion, it cancels the
suggestion, clears the prefilled line and prompts again; otherwise it runs
cleanup (saveHistory first, then closing readline) and resolves the loop
promise, terminating the session. -/
def sigintHandler (s : SigState) : SigState × List SigEvent :=
  match s.currentRunningProcess with
  | some _ => ({ s with currentRunningProcess := none }, [.killForwarded])
  | none =>
    match s.aiSuggestionContext with
    | some _ => ({ s with aiSuggestionContext := none },
                 [.suggestionCancelled, .lineCleared, .promptAgain])
    | none => (s, [.saveHistory, .closeReadline, .exitSession])

/-- C3: on each delivery of the interrupt signal, if a subprocess is
running the handler only forwards the kill (the session never terminates);
if no subprocess is running and no suggestion is pending, the handler saves
history, closes readline and terminates the session, in that order. -/
theorem c3_interrupt_dispatch (s : SigState) :
    (s.currentRunningProcess.isSome →
      (sigintHandler s).2 = [.killForwarded] ∧
      SigEvent.exitSession ∉ (sigintHandler s).2) ∧
    (s.currentRunningProcess = none → s.aiSuggestionContext = none →
      (sigintHandler s).2 = [.saveHistory, .closeReadline, .exitSession]) := by
  obtain ⟨rp, sc⟩ := s
  cases rp <;> cases sc <;> constructor <;> simp [sigintHandler]

/-- C3, witnessed: with a running subprocess of handle 7 the interrupt only
forwards the kill; with nothing running and nothing pending it saves
history and then exits. -/
theorem c3_interrupt_dispatch_witness :
    (sigintHandler ⟨some 7, none⟩).2 = [.killForwarded] ∧
    (sigintHandler ⟨none, none⟩).2 = [.saveHistory, .closeReadline, .exitSession] :=
  ⟨((c3_interrupt_dispatch ⟨some 7, none⟩).1 (by decide)).1,
   (c3_interrupt_dispatch ⟨none, none⟩).2 rfl rfl⟩

/-- True when a path is POSIX-absolute.  JavaScript String.prototype.split
with a single-character separator is modelled throughout by List.splitOn,
which has the same segment semantics (consecutive separators give empty
segments, the empty string splits to one empty segment). -/
def isAbsolutePath (p : JStr) : Bool :=
  match p with
  | c :: _ => c == '/'
  | [] => false

/-- Segment normalization of Node path.resolve on an absolute path: empty
and dot segments are dropped, a dot-dot segment removes the previous
segment and is dropped at the root. -/
def resolveSegs (acc : List JStr) : List JStr → List JStr
  | [] => acc
  | s :: rest =>
    if s == [] || s == ".".data then resolveSegs acc rest
    else if s == "..".data then resolveSegs acc.dropLast rest
    else resolveSegs (acc ++ [s]) rest

/-- Node path.resolve(cwd, p) for an absolute cwd and a relative p: the
two are joined with a separator and normalized into an absolute path. -/
def pathResolve (cwd p : JStr) : JStr :=
  '/' :: List.intercalate "/".data (resolveSegs [] ((cwd ++ '/' :: p).splitOn '/'))

/-- parts[1] of command.split(' ') in handleCdCommand (shell.ts line 428),
with an absent entry modelled as the empty string: undefined and the empty
string are both falsy in the default expression parts[1] || os.homedir(). -/
def cdRawArg (command : JStr) : JStr :=
  ((command.splitOn ' ').drop 1).headD []

/-- The target directory handleCdCommand resolves (shell.ts lines 428-434):
the token after cd, defaulting to the home directory, resolved against the
current directory when relative. -/
def cdTarget (homedir cwd command : JStr) : JStr :=
  let targetDir := if cdRawArg command == [] then homedir else cdRawArg command
  if isAbsolutePath targetDir then targetDir else pathResolve cwd targetDir

/-- handleCdCommand (shell.ts lines 427-443), with isDir abstracting
whether process.chdir on the target succeeds (the target exists and is a
directory).  Returns the session's currentDirectory afterwards together
with the error message printed on failure: on failure the directory is
left unchanged and the message names the resolved target path, not the
raw argument. -/
def handleCdCommand (isDir : JStr → Bool) (homedir cwd command : JStr) :
    JStr × Option JStr :=
  let targetDir := cdTarget homedir cwd command
  if isDir targetDir then (targetDir, none)
  else (cwd, some ("cd: no such file or directory: ".data ++ targetDir))

/-- The two ways executeCommand can dispatch a submitted command. -/
inductive DispatchAction
  | cdIntercepted
  | spawnSubprocess
deriving DecidableEq, Repr

/-- The dispatch at the top of executeCommand (shell.ts lines 339-354): a
command is handed to handleCdCommand exactly when it starts with the three
characters cd-space; every other command reaches the spawn call. -/
def executeCommandDispatch (command : JStr) : DispatchAction :=
  if "cd ".data.isPrefixOf command then .cdIntercepted else .spawnSubprocess

/-- C4: every line beginning with cd-space is intercepted by the cd
handler and never reaches the spawn path, but the bare line cd fails the
startsWith test and is dispatched to the subprocess-spawning path, so its
home-directory default (the parts[1] || os.homedir() expression inside
handleCdCommand) is unreachable for it. -/
theorem c4_bare_cd_spawns :
    (∀ rest : JStr, executeCommandDispatch ("cd ".data ++ rest) = .cdIntercepted) ∧
    executeCommandDispatch "cd".data = .spawnSubprocess := by
  constructor
  · intro rest
    simp [executeCommandDispatch, List.isPrefixOf_iff_prefix, List.prefix_append]
  · decide

/-- C5: whenever the resolved target of a cd line is not an existing
directory, handleCdCommand leaves the working directory unchanged and
reports a no-such-file-or-directory failure naming the resolved target
path. -/
theorem c5_cd_failure_keeps_state (isDir : JStr → Bool) (homedir cwd command : JStr)
    (h : isDir (cdTarget homedir cwd command) = false) :
    handleCdCommand isDir homedir cwd command
      = (cwd, some ("cd: no such file or directory: ".data
          ++ cdTarget homedir cwd command)) := by
  simp [handleCdCommand, h]

/-- C5, witnessed: cd ../missing-dir from /home/user/project with no
directory existing leaves the working directory unchanged and reports the
resolved absolute path /home/user/missing-dir, not the raw argument. -/
theorem c5_cd_failure_witness :
    (fun _ => false : JStr → Bool)
        (cdTarget "/root".data "/home/user/project".data "cd ../missing-dir".data) = false ∧
    handleCdCommand (fun _ => false) "/root".data "/home/user/project".data
        "cd ../missing-dir".data
      = ("/home/user/project".data,
         some "cd: no such file or directory: /home/user/missing-dir".data) :=
  ⟨rfl,
    (c5_cd_failure_keeps_state (fun _ => false) "/root".data "/home/user/project".data
        "cd ../missing-dir".data rfl).trans (by decide)⟩

/-- Splitting a cd line on spaces: the characters c and d are no
separators, so the first segment is cd and the second the first token of
the argument. -/
theorem splitOn_space_cd (a rest : JStr) (hsp : ' ' ∉ a) :
    ("cd ".data ++ a ++ " ".data ++ rest).splitOn ' '
      = "cd".data :: a :: rest.splitOn ' ' := by
  have hcd : ∀ x ∈ (['c', 'd'] : JStr), ¬((x == ' ') = true) := by decide
  have hxa : ∀ x ∈ a, ¬((x == ' ') = true) := by
    intro x hx
    simp only [beq_iff_eq]
    intro h
    exact hsp (h ▸ hx)
  have h1 : "cd ".data ++ a ++ " ".data ++ rest
      = ['c', 'd'] ++ ' ' :: (a ++ ' ' :: rest) := by
    simp [List.append_assoc]
  rw [h1]
  simp only [List.splitOn]
  rw [List.splitOnP_first _ _ hcd ' ' (by decide),
      List.splitOnP_first _ _ hxa ' ' (by decide)]

/-- Splitting a cd line with a single, space-free argument. -/
theorem splitOn_space_cd_single (a : JStr) (hsp : ' ' ∉ a) :
    ("cd ".data ++ a).splitOn ' ' = "cd".data :: [a] := by
  have hcd : ∀ x ∈ (['c', 'd'] : JStr), ¬((x == ' ') = true) := by decide
  have hxa : ∀ x ∈ a, ¬((x == ' ') = true) := by
    intro x hx
    simp only [beq_iff_eq]
    intro h
    exact hsp (h ▸ hx)
  have h1 : "cd ".data ++ a = ['c', 'd'] ++ ' ' :: a := by simp
  rw [h1]
  simp only [List.splitOn]
  rw [List.splitOnP_first _ _ hcd ' ' (by decide), List.splitOnP_eq_single _ _ hxa]

/-- C10: the cd handler takes only the first space-separated token after
cd as the target; everything after the first space of the argument is
ignored, so the line resolves exactly as the line without the remainder
would. -/
theorem c10_cd_first_token (homedir cwd a rest : JStr)
    (ha : a ≠ []) (hsp : ' ' ∉ a) :
    cdRawArg ("cd ".data ++ a ++ " ".data ++ rest) = a ∧
    cdTarget homedir cwd ("cd ".data ++ a ++ " ".data ++ rest)
      = cdTarget homedir cwd ("cd ".data ++ a) := by
  have hraw : cdRawArg ("cd ".data ++ a ++ " ".data ++ rest) = a := by
    rw [cdRawArg, splitOn_space_cd a rest hsp]
    rfl
  have hraw2 : cdRawArg ("cd ".data ++ a) = a := by
    rw [cdRawArg, splitOn_space_cd_single a hsp]
    rfl
  exact ⟨hraw, by rw [cdTarget, cdTarget, hraw, hraw2]⟩

/-- C10, witnessed: the line cd my dir resolves the target my (against the
current directory) and ignores dir entirely. -/
theorem c10_cd_first_token_witness :
    ("my".data : JStr) ≠ [] ∧
    cdTarget "/root".data "/home/user".data "cd my dir".data
      = cdTarget "/root".data "/home/user".data "cd my".data ∧
    cdTarget "/root".data "/home/user".data "cd my dir".data = "/home/user/my".data :=
  ⟨by decide,
   (c10_cd_first_token "/root".data "/home/user".data "my".data "dir".data
      (by decide) (by decide)).2,
   by decide⟩

/-- addToHistory (shell.ts lines 539-553): unshift the command onto the
recall buffer and, when the length then exceeds 1000, truncate to the 500
most recent entries. -/
def addToHistory (command : JStr) (history : List JStr) : List JStr :=
  let h := command :: history
  if h.length > 1000 then h.take 500 else h

/-- File content written by saveHistory (shell.ts lines 714-733) for a
non-empty recall buffer: the buffer reversed to oldest-first, capped by
slice(0, 1000), joined with newlines and newline-terminated. -/
def saveHistoryContent (history : List JStr) : JStr :=
  List.intercalate "\n".data (history.reverse.take 1000) ++ "\n".data

/-- Recall buffer installed by loadHistory (shell.ts lines 695-712) from a
history-file content: trim, split on newlines, drop empty lines, and
reverse to newest-first. -/
def loadHistoryBuffer (content : JStr) : List JStr :=
  (((jsTrim content).splitOn '\n').filter (fun l => decide (0 < l.length))).reverse

/-- C7: addToHistory prepends the command; no truncation happens while the
resulting length stays at or below 1000, and as soon as it exceeds 1000
the buffer is cut to its 500 most recent entries. -/
theorem c7_addToHistory_cap (command : JStr) (history : List JStr) :
    (history.length + 1 ≤ 1000 → addToHistory command history = command :: history) ∧
    (history.length + 1 > 1000 →
      addToHistory command history = (command :: history).take 500 ∧
      (addToHistory command history).length = 500) := by
  constructor
  · intro h
    simp only [addToHistory]
    rw [if_neg (by simp; omega)]
  · intro h
    have hif : addToHistory command history = (command :: history).take 500 := by
      simp only [addToHistory]
      rw [if_pos (by simp; omega)]
    refine ⟨hif, ?_⟩
    rw [hif, List.length_take]
    simp
    omega

/-- C7, witnessed at the hysteresis boundary: a buffer of length 1000 is
truncated to 500 entries on the next insertion, while a short buffer is
only prepended to. -/
theorem c7_addToHistory_cap_witness :
    (List.replicate 1000 ("x".data : JStr)).length + 1 > 1000 ∧
    addToHistory "y".data (List.replicate 1000 "x".data)
      = ("y".data :: List.replicate 1000 "x".data).take 500 ∧
    addToHistory "y".data ["a".data] = ["y".data, "a".data] :=
  ⟨by rw [List.length_replicate]; omega,
   ((c7_addToHistory_cap "y".data (List.replicate 1000 "x".data)).2
      (by rw [List.length_replicate]; omega)).1,
   (c7_addToHistory_cap "y".data ["a".data]).1 (by simp)⟩

/-- Length of dropWhile never exceeds the length of the list. -/
theorem length_dropWhile_le (p : Char → Bool) (l : JStr) :
    (l.dropWhile p).length ≤ l.length := by
  induction l with
  | nil => simp
  | cons a t ih =>
    rw [List.dropWhile_cons]
    by_cases h : p a = true
    · rw [if_pos h]
      exact le_trans ih (by simp)
    · rw [if_neg h]

/-- A dropWhile that keeps the whole length keeps the whole list. -/
theorem dropWhile_length_eq (p : Char → Bool) (l : JStr)
    (h : (l.dropWhile p).length = l.length) : l.dropWhile p = l := by
  cases l with
  | nil => rfl
  | cons a t =>
    rw [List.dropWhile_cons]
    by_cases hp : p a = true
    · exfalso
      rw [List.dropWhile_cons, if_pos hp] at h
      have := length_dropWhile_le p t
      simp at h
      omega
    · rw [if_neg hp]

/-- The length of a trimmed string is at most the length after trimming
the front only. -/
theorem length_jsTrim_le_front (s : JStr) :
    (jsTrim s).length ≤ (s.dropWhile isJsWs).length := by
  rw [jsTrim, List.length_reverse]
  calc ((s.dropWhile isJsWs).reverse.dropWhile isJsWs).length
      ≤ (s.dropWhile isJsWs).reverse.length := length_dropWhile_le ..
    _ = (s.dropWhile isJsWs).length := List.length_reverse ..

/-- A non-empty string left unchanged by trim starts with a
non-whitespace character. -/
theorem trimmed_head_not_ws (c : JStr) (hne : c ≠ []) (htr : jsTrim c = c) :
    ∃ d ds, c = d :: ds ∧ isJsWs d = false := by
  cases c with
  | nil => exact absurd rfl hne
  | cons d ds =>
    refine ⟨d, ds, rfl, ?_⟩
    by_contra h
    rw [Bool.not_eq_false] at h
    have h1 : (d :: ds).dropWhile isJsWs = ds.dropWhile isJsWs := by
      rw [List.dropWhile_cons, if_pos h]
    have h2 := length_jsTrim_le_front (d :: ds)
    rw [htr, h1] at h2
    have h3 := length_dropWhile_le isJsWs ds
    simp at h2
    omega

/-- A non-empty string left unchanged by trim ends with a non-whitespace
character (stated on its reversal). -/
theorem trimmed_last_not_ws (c : JStr) (hne : c ≠ []) (htr : jsTrim c = c) :
    ∃ e es, c.reverse = e :: es ∧ isJsWs e = false := by
  have hrevne : c.reverse ≠ [] := by simpa using hne
  cases hrev : c.reverse with
  | nil => exact absurd hrev hrevne
  | cons e es =>
    refine ⟨e, es, rfl, ?_⟩
    by_contra h
    rw [Bool.not_eq_false] at h
    have hfront : c.dropWhile isJsWs = c := by
      apply dropWhile_length_eq
      have h2 := length_jsTrim_le_front c
      rw [htr] at h2
      exact le_antisymm (length_dropWhile_le ..) h2
    have hback : jsTrim c = (es.dropWhile isJsWs).reverse := by
      rw [jsTrim, hfront, hrev, List.dropWhile_cons, if_pos h]
    have h4 : (jsTrim c).length ≤ es.length := by
      rw [hback, List.length_reverse]
      exact length_dropWhile_le ..
    rw [htr] at h4
    have h5 : c.length = es.length + 1 := by
      have := congrArg List.length hrev
      simpa using this
    omega

/-- Trimming a newline-terminated block whose body starts and ends with
non-whitespace characters just removes the final newline. -/
theorem jsTrim_sandwich (A : JStr) (d e : Char) (ds es : JStr)
    (hA : A = d :: ds) (hd : isJsWs d = false)
    (hrevA : A.reverse = e :: es) (he : isJsWs e = false) :
    jsTrim (A ++ ['\n']) = A := by
  subst hA
  have h1 : ((d :: ds) ++ ['\n']).dropWhile isJsWs = (d :: ds) ++ ['\n'] := by
    rw [List.cons_append, List.dropWhile_cons, if_neg (by simp [hd])]
  rw [jsTrim, h1]
  have h2 : ((d :: ds) ++ ['\n']).reverse = '\n' :: e :: es := by
    rw [List.reverse_append, hrevA]
    rfl
  rw [h2]
  have hnl : isJsWs '\n' = true := rfl
  rw [List.dropWhile_cons, if_pos hnl, List.dropWhile_cons, if_neg (by simp [he]),
      ← hrevA, List.reverse_reverse]

/-- C6, claim as stated, is false: the entries a, b and space-c are all
non-empty and newline-free, yet saving the buffer [a, b, space-c] and
loading it back yields [a, b, c]: the file-level trim of loadHistory eats
the leading space of the oldest entry, which sits at the start of the
file. -/
theorem c6_counterexample :
    loadHistoryBuffer (saveHistoryContent ["a".data, "b".data, " c".data])
      = ["a".data, "b".data, "c".data] ∧
    loadHistoryBuffer (saveHistoryContent ["a".data, "b".data, " c".data])
      ≠ ["a".data, "b".data, " c".data] := by
  exact ⟨by decide, by decide⟩

/-- C6 (amended): for a buffer [c1, c2, c3] of non-empty, newline-free
command strings that in addition carry no leading or trailing whitespace
(they are fixed points of trim), saving to disk and loading into a fresh
store restores the identical newest-first buffer: the save path and the
load path each perform exactly one reversal. -/
theorem c6_history_round_trip (c1 c2 c3 : JStr)
    (h1 : c1 ≠ []) (h2 : c2 ≠ []) (h3 : c3 ≠ [])
    (n1 : '\n' ∉ c1) (n2 : '\n' ∉ c2) (n3 : '\n' ∉ c3)
    (t1 : jsTrim c1 = c1) (t2 : jsTrim c2 = c2) (t3 : jsTrim c3 = c3) :
    loadHistoryBuffer (saveHistoryContent [c1, c2, c3]) = [c1, c2, c3] := by
  obtain ⟨d, ds, hc3, hd⟩ := trimmed_head_not_ws c3 h3 t3
  obtain ⟨e, es, hc1rev, he⟩ := trimmed_last_not_ws c1 h1 t1
  have hsave : saveHistoryContent [c1, c2, c3]
      = (c3 ++ '\n' :: (c2 ++ '\n' :: c1)) ++ ['\n'] := by
    rw [saveHistoryContent]
    rw [show ([c1, c2, c3].reverse) = [c3, c2, c1] by simp]
    rw [List.take_of_length_le (by simp)]
    simp [List.intercalate, List.intersperse]
  have hA : c3 ++ '\n' :: (c2 ++ '\n' :: c1) = d :: (ds ++ '\n' :: (c2 ++ '\n' :: c1)) := by
    rw [hc3]
    rfl
  have hArev : (c3 ++ '\n' :: (c2 ++ '\n' :: c1)).reverse
      = e :: (es ++ '\n' :: (c2.reverse ++ '\n' :: c3.reverse)) := by
    simp [List.reverse_append, hc1rev, List.append_assoc]
  have htrim : jsTrim (saveHistoryContent [c1, c2, c3]) = c3 ++ '\n' :: (c2 ++ '\n' :: c1) := by
    rw [hsave]
    exact jsTrim_sandwich _ d e _ _ hA hd hArev he
  have hsplit : (c3 ++ '\n' :: (c2 ++ '\n' :: c1)).splitOn '\n' = [c3, c2, c1] := by
    rw [show c3 ++ '\n' :: (c2 ++ '\n' :: c1) = List.intercalate ['\n'] [c3, c2, c1] by
      simp [List.intercalate, List.intersperse]]
    refine List.splitOn_intercalate [c3, c2, c1] '\n' ?_ (by simp)
    intro l hl
    simp only [List.mem_cons, List.not_mem_nil, or_false] at hl
    rcases hl with rfl | rfl | rfl
    exacts [n3, n2, n1]
  have hf3 : decide (0 < c3.length) = true := by simp [List.length_pos, h3]
  have hf2 : decide (0 < c2.length) = true := by simp [List.length_pos, h2]
  have hf1 : decide (0 < c1.length) = true := by simp [List.length_pos, h1]
  rw [loadHistoryBuffer, htrim, hsplit]
  rw [List.filter_cons, hf3, List.filter_cons, hf2, List.filter_cons, hf1]
  simp

/-- C6 amended, witnessed: the buffer with newest entry ls -la, then
git status, then pwd survives the save-then-load round trip unchanged. -/
theorem c6_history_round_trip_witness :
    jsTrim "ls -la".data = "ls -la".data ∧
    loadHistoryBuffer (saveHistoryContent ["ls -la".data, "git status".data, "pwd".data])
      = ["ls -la".data, "git status".data, "pwd".data] :=
  ⟨by decide,
   c6_history_round_trip "ls -la".data "git status".data "pwd".data
     (by decide) (by decide) (by decide) (by decide) (by decide) (by decide)
     (by decide) (by decide) (by decide)⟩

/-- askUserConfirmation (shell.ts lines 555-562): the reply is trimmed,
lowercased and compared against y and yes. -/
def askUserConfirmation (answer : JStr) : Bool :=
  let response := jsToLower (jsTrim answer)
  response == "y".data || response == "yes".data

/-- handleFailedAiCommand after the confirmation answer arrives (shell.ts
lines 484-537): on a confirmed reply the translation collaborator is
called again, and when it returns a command a fresh suggestion context is
installed that preserves the original natural-language prompt; on any
other reply the function returns at once.  translationResult abstracts the
collaborator's reply; the Bool records whether the collaborator was
called, the Option the context assignment the call performs (none means
the field is not assigned). -/
def handleFailedAiCommand (translationResult : Option JStr)
    (originalPrompt : JStr) (answer : JStr) : Bool × Option SuggCtx :=
  if askUserConfirmation answer then
    match translationResult with
    | some _ => (true, some ⟨originalPrompt, true⟩)
    | none => (true, none)
  else (false, none)

/-- C9: in the fix-offered state the collaborator is called again exactly
when the trimmed, lowercased reply is y or yes; any other reply makes no
further collaborator call and assigns nothing to the suggestion context,
leaving the machine to fall back to Idle. -/
theorem c9_fix_requires_yes (translationResult : Option JStr)
    (originalPrompt answer : JStr) :
    ((handleFailedAiCommand translationResult originalPrompt answer).1 = true
      ↔ (jsToLower (jsTrim answer) = "y".data ∨ jsToLower (jsTrim answer) = "yes".data)) ∧
    (¬(jsToLower (jsTrim answer) = "y".data ∨ jsToLower (jsTrim answer) = "yes".data) →
      handleFailedAiCommand translationResult originalPrompt answer = (false, none)) := by
  have hcond : askUserConfirmation answer = true
      ↔ (jsToLower (jsTrim answer) = "y".data ∨ jsToLower (jsTrim answer) = "yes".data) := by
    simp [askUserConfirmation]
  constructor
  · constructor
    · intro h
      by_contra hno
      unfold handleFailedAiCommand at h
      rw [if_neg (fun hc => hno (hcond.mp hc))] at h
      simp at h
    · intro h
      unfold handleFailedAiCommand
      rw [if_pos (hcond.mpr h)]
      cases translationResult <;> rfl
  · intro hno
    unfold handleFailedAiCommand
    rw [if_neg (fun hc => hno (hcond.mp hc))]

/-- C9, witnessed: the reply with spaces around YES (uppercase) confirms
and calls the collaborator; the reply n makes no call and no context
assignment. -/
theorem c9_fix_requires_yes_witness :
    (jsToLower (jsTrim "  YES ".data) = "y".data ∨ jsToLower (jsTrim "  YES ".data) = "yes".data) ∧
    (handleFailedAiCommand (some "ls -la".data) "list files".data "  YES ".data).1 = true ∧
    ¬(jsToLower (jsTrim "n".data) = "y".data ∨ jsToLower (jsTrim "n".data) = "yes".data) ∧
    handleFailedAiCommand (some "ls -la".data) "list files".data "n".data = (false, none) :=
  ⟨by decide,
   (c9_fix_requires_yes (some "ls -la".data) "list files".data "  YES ".data).1.mpr (by decide),
   by decide,
   (c9_fix_requires_yes (some "ls -la".data) "list files".data "n".data).2 (by decide)⟩

end Terminai
